import Mathlib

/-!
Verification development for the media-inference backend
(`backend.py`): a FastAPI service exposing tabular health
classification, image/video object detection, and streaming download
of produced video artifacts.

Modelling conventions (shallow embedding):
* Filesystem paths are lists of segments (`List String`); the OS-level
  resolution of `.` / `..` segments during lookup is the `normalize`
  function.
* The filesystem is an association list from paths to file contents
  (`List Nat`, one `Nat` per byte).
* External engines (the YOLO detection model, the decision-tree
  classifier, media decoding) are opaque collaborators: each handler is
  parameterised by the engine outcome (`Except`/sum types), exactly as
  the Python handlers observe them (a returned value or a raised
  exception caught by the surrounding `try/except`).
* Python's `str(uuid.uuid4())[:8]` token is an opaque `String`
  parameter `uid`; nothing about its distribution is assumed.
-/

namespace Strawberry

/-- Boolean test that `dir` is a segmentwise ancestor-or-equal of `p`
(`dir` is an initial run of `p`), used to model `shutil.rmtree`
removing everything below a directory and to express "lies under the
managed root". -/
def leadsUnder : List String → List String → Bool
  | [], _ => true
  | _ :: _, [] => false
  | a :: as, b :: bs => a == b && leadsUnder as bs

/-- accumulator step of OS path resolution: `..` pops one segment,
`.` and empty segments are skipped, anything else is appended. -/
def normStep (stack : List String) (seg : String) : List String :=
  if seg = ".." then stack.dropLast
  else if seg = "." ∨ seg = "" then stack
  else stack ++ [seg]

/-- OS-level resolution of `.` and `..` segments in a path, as performed
by the operating system when `os.path.exists` / `open` walk the joined
path `os.path.join(os.getcwd(), video_path)`. -/
def normalize (p : List String) : List String := p.foldl normStep []

/-- Filesystem model: a finite map from paths to byte contents,
as an association list. -/
def FS := List (List String × List Nat)

/-- Writing a file: models `open(path, "wb")` + `shutil.copyfileobj`
(overwrites any previous entry at the same path). -/
def fsWrite (fs : FS) (p : List String) (d : List Nat) : FS :=
  (p, d) :: fs.filter (fun e => ! (e.1 == p))

/-- Deleting one file: models `os.remove(path)`. -/
def fsRemove (fs : FS) (p : List String) : FS :=
  fs.filter (fun e => ! (e.1 == p))

/-- Recursive directory removal: models
`shutil.rmtree(dir, ignore_errors=True)` — every file whose path lies
under `dir` disappears. -/
def fsRmtree (fs : FS) (dir : List String) : FS :=
  fs.filter (fun e => ! leadsUnder dir e.1)

/-- Existence test: models `os.path.exists`. -/
def fsHas (fs : FS) (p : List String) : Bool :=
  fs.any (fun e => e.1 == p)

/-- Content lookup: models opening the file at `p` and reading it. -/
def fsLookup (fs : FS) (p : List String) : Option (List Nat) :=
  (fs.find? (fun e => e.1 == p)).map (fun e => e.2)

/-- Fuel-indexed helper for `file_iterator`; the fuel only serves to
make the recursion structural (each loop iteration consumes at least
one byte, so fuel `d.length` is always enough —
`file_iterator_cons` below recovers the loop's own recurrence). -/
def file_iteratorAux (fuel : Nat) (d : List Nat) : List (List Nat) :=
  match d, fuel with
  | [], _ => []
  | _ :: _, 0 => []
  | a :: l, fuel + 1 => (a :: l).take 8192 :: file_iteratorAux fuel ((a :: l).drop 8192)

/-- Embedding of `file_iterator(file_path, chunk_size=8192)` from
`get_video` (src/backend.py lines 140-146): repeatedly `read(8192)`
until the read comes back empty, yielding each chunk; `d` is the byte
content of the opened file. -/
def file_iterator (d : List Nat) : List (List Nat) :=
  file_iteratorAux d.length d

/-! ## `POST /predict/health` (src/backend.py lines 44-68) -/

/-- Embedding of `label_map = {0: "Healthy", 1: "Moderate Stress",
2: "High Stress"}` as a partial map (`dict.get` with a default is
modelled by `Option.getD` at the use site). -/
def label_map : Int → Option String := fun c =>
  if c = 0 then some "Healthy"
  else if c = 1 then some "Moderate Stress"
  else if c = 2 then some "High Stress"
  else none

/-- Response body of a successful `/predict/health` call. `confidence`
is kept as the exact percentage (a rational) rather than its two-decimal
string rendering. -/
structure HealthBody where
  plant_health_status : String
  confidence : ℚ
  prediction_code : Int
  deriving Repr, DecidableEq

/-- Possible JSON bodies returned by `/predict/health`: the success
shape, or the error object with message string. -/
inductive HealthResponse
  | ok (body : HealthBody)
  | err (msg : String)
  deriving Repr, DecidableEq

/-- Outcome of the classifier-engine calls inside the handler's `try`:
either the scaled prediction succeeds, giving the predicted class code
`pred = dt_model.predict(...)[0]` and the probability row
`dt_model.predict_proba(...)[0]`, or some engine step raises an
exception with a message. -/
inductive ClassifierOutcome
  | ok (pred : Int) (probas : List ℚ)
  | exn (msg : String)

/-- Embedding of numpy `.max()` over the probability row: fails (raises,
hence an exception caught by the handler) on an empty array, otherwise
the maximum element. -/
def npMax : List ℚ → Option ℚ
  | [] => none
  | a :: l => some (l.foldl max a)

/-- Embedding of the `predict_health` handler (src/backend.py lines
46-68): on an engine exception the `except` branch returns the error
body; otherwise `confidence = probas.max() * 100`,
`health_status = label_map.get(int(pred), "Unknown")`, and the success
body is returned. -/
def predict_health (outcome : ClassifierOutcome) : HealthResponse :=
  match outcome with
  | .exn e => .err ("Prediction failed: " ++ e)
  | .ok pred probas =>
    match npMax probas with
    | none => .err ("Prediction failed: " ++ "zero-size array reduction")
    | some m =>
      .ok { plant_health_status := (label_map pred).getD "Unknown"
            confidence := m * 100
            prediction_code := pred }

/-! ## `POST /detect/image` (src/backend.py lines 70-90) -/

/-- One entry of `r.boxes` as observed by the handler: the class index
`box.cls`, the scalar confidence `box.conf`, and the bounding-box
tensor `box.xyxy` as its list of rows (`tolist()`). -/
structure Box where
  cls : Nat
  conf : ℚ
  xyxy : List (List ℚ)

/-- One element of the YOLO `results` list: the class-name table
`r.names` and the optional boxes collection (`r.boxes` may be `None`). -/
structure YoloResult where
  names : Nat → String
  boxes : Option (List Box)

/-- One element of the response's `detections` list, built as
`{"class": ..., "confidence": ..., "bbox": box.xyxy.tolist()[0]}`
(the `class` key is spelled `cls` because `class` is reserved). -/
structure DetectionRecord where
  cls : String
  confidence : ℚ
  bbox : List ℚ

/-- Possible JSON bodies returned by `/detect/image`. -/
inductive ImageResponse
  | ok (detections : List DetectionRecord) (total_detections : Nat)
  | err (msg : String)

/-- Extraction of one detection dict from one box; `box.xyxy.tolist()[0]`
raises `IndexError` when the row list is empty, modelled by `none`. -/
def boxRecord (names : Nat → String) (b : Box) : Option DetectionRecord :=
  match b.xyxy with
  | [] => none
  | row :: _ => some { cls := names b.cls, confidence := b.conf, bbox := row }

/-- Inner loop over `boxes`, appending one record per box; the first
`IndexError` aborts the whole handler (propagates as `none`). -/
def collectBoxes (names : Nat → String) : List Box → Option (List DetectionRecord)
  | [] => some []
  | b :: bs =>
    (boxRecord names b).bind fun r =>
      (collectBoxes names bs).bind fun rs => some (r :: rs)

/-- Contribution of one element of `results`: nothing when `r.boxes` is
`None`, otherwise its collected box records. -/
def resultRecords (r : YoloResult) : Option (List DetectionRecord) :=
  match r.boxes with
  | none => some []
  | some bs => collectBoxes r.names bs

/-- Outer loop over `results` (`for r in results`). -/
def collectResults : List YoloResult → Option (List DetectionRecord)
  | [] => some []
  | r :: rs =>
    (resultRecords r).bind fun ds =>
      (collectResults rs).bind fun rest => some (ds ++ rest)

/-- Embedding of the `detect_image` handler (src/backend.py lines
70-90): the upload read/decode/inference steps are summarised by
`outcome` (`.error` for any exception raised before the loop); the loop
then builds `detections` and returns it together with its length, and a
loop-internal `IndexError` falls through to the same `except` branch. -/
def detect_image (outcome : Except String (List YoloResult)) : ImageResponse :=
  match outcome with
  | .error e => .err ("Image detection failed: " ++ e)
  | .ok results =>
    match collectResults results with
    | none => .err ("Image detection failed: " ++ "list index out of range")
    | some ds => .ok ds ds.length

/-! ## `POST /detect/video` (src/backend.py lines 92-128) -/

/-- Scratch directory shared by all video requests:
`temp_dir = "temp_video"`. -/
def temp_dir : List String := ["temp_video"]

/-- Per-request input filename: `input_filename = f"input_{unique_id}.mp4"`. -/
def input_filename (uid : String) : String := "input_" ++ uid ++ ".mp4"

/-- Scratch path of the materialized upload:
`temp_video_path = os.path.join(temp_dir, input_filename)`. -/
def temp_video_path (uid : String) : List String :=
  ["temp_video", input_filename uid]

/-- Per-request YOLO output directory:
`project="runs/detect", name=f"predict_{unique_id}"`. -/
def outputNamespace (uid : String) : List String :=
  ["runs", "detect", "predict_" ++ uid]

/-- Relative path of the annotated output video:
`f"runs/detect/predict_{unique_id}/{input_filename[:-4]}.avi"`
(the `[:-4]` strips the `.mp4` suffix of `input_{uid}.mp4`). -/
def output_video_path (uid : String) : List String :=
  ["runs", "detect", "predict_" ++ uid, "input_" ++ uid ++ ".avi"]

/-- Outcome of `yolo_model.predict(source=..., save=True, ...)`: success
produces a `results` list (its length is the frame count) and writes the
annotated video, or the call raises with a message. -/
inductive EngineResult
  | ok (frames : Nat) (outData : List Nat)
  | fail (msg : String)

/-- Possible JSON bodies returned by `/detect/video`, plus the
framework-level 422 validation rejection FastAPI issues before the
handler body runs when the required `file` part is missing. -/
inductive VideoDetectResponse
  | ok (message : String) (out_path : List String) (total_frames : Nat)
  | err (msg : String)
  | validation (statusCode : Nat)
  deriving Repr, DecidableEq

/-- Embedding of the `detect_video` handler body (src/backend.py lines
94-128), threading the filesystem: materialize the upload under the
shared scratch directory, run the engine; on success the engine has
written the output artifact, then `os.remove` the input and
`shutil.rmtree` the whole scratch directory and return the success
body; an engine exception skips every cleanup line and returns the
error body. -/
def detect_video (fs : FS) (uid : String) (upload : List Nat)
    (engine : EngineResult) : VideoDetectResponse × FS :=
  let fs1 := fsWrite fs (temp_video_path uid) upload
  match engine with
  | .fail e => (.err ("Video detection failed: " ++ e), fs1)
  | .ok frames outData =>
    let fs2 := fsWrite fs1 (output_video_path uid) outData
    let fs3 := fsRemove fs2 (temp_video_path uid)
    let fs4 := fsRmtree fs3 temp_dir
    (.ok "Video processed successfully" (output_video_path uid) frames, fs4)

/-- Declared upload part of a multipart request: the client's stated
content type and the raw bytes. -/
structure Upload where
  contentType : String
  data : List Nat

/-- Framework wrapper around `detect_video`: FastAPI rejects a request
missing the required `file` part with a 422 validation error before the
handler body (and hence before any filesystem operation) runs; when the
part is present the handler receives it unconditionally — no content
type inspection happens anywhere on the route. -/
def route_detect_video (fs : FS) (uid : String) (upload : Option Upload)
    (engine : EngineResult) : VideoDetectResponse × FS :=
  match upload with
  | none => (.validation 422, fs)
  | some u => detect_video fs uid u.data engine

/-! ## `GET /video/{video_path:path}` (src/backend.py lines 131-158) -/

/-- Rendering of a segment path back to the string form that appears in
response bodies and headers. -/
def renderPath (p : List String) : String := String.intercalate "/" p

/-- Possible outcomes of `get_video`: the structured not-found error
body (`\x7b"error": f"Video not found: \x7bfull_path\x7d"\x7d`), or a
`StreamingResponse` whose generator yields the chunk sequence of the
file found at the resolved absolute path. -/
inductive VideoFetchResponse
  | errBody (msg : String)
  | stream (resolved : List String) (chunks : List (List Nat))
  deriving Repr, DecidableEq

/-- Embedding of the `get_video` handler (src/backend.py lines
131-158): `full_path = os.path.join(os.getcwd(), video_path)` is the
working directory extended by the caller-supplied segments; the OS
resolves `.` and `..` during `os.path.exists`/`open`, modelled by
`normalize`; a missing file yields the error body, otherwise the file
is streamed through `file_iterator` in 8192-byte chunks. No
containment check against any root directory is performed. -/
def get_video (fs : FS) (cwd : List String) (video_path : List String) :
    VideoFetchResponse :=
  let full := normalize (cwd ++ video_path)
  match fsLookup fs full with
  | none => .errBody ("Video not found: " ++ renderPath full)
  | some d => .stream full (file_iterator d)

/-! ## Lemmas about `file_iterator` -/

/-- Fuel irrelevance: any fuel at least the byte count gives the same
chunk list. -/
theorem file_iteratorAux_congr (f1 : Nat) :
    ∀ (d : List Nat) (f2 : Nat), d.length ≤ f1 → d.length ≤ f2 →
      file_iteratorAux f1 d = file_iteratorAux f2 d := by
  induction f1 with
  | zero =>
    intro d f2 h1 h2
    cases d with
    | nil => cases f2 <;> rfl
    | cons a l => simp at h1
  | succ n ih =>
    intro d f2 h1 h2
    cases d with
    | nil => cases f2 <;> rfl
    | cons a l =>
      cases f2 with
      | zero => simp at h2
      | succ m =>
        simp only [file_iteratorAux]
        congr 1
        apply ih
        · simp only [List.length_drop, List.length_cons]
          simp only [List.length_cons] at h1
          omega
        · simp only [List.length_drop, List.length_cons]
          simp only [List.length_cons] at h2
          omega

/-- The loop recurrence of `file_iterator` on a nonempty file: one full
read of at most 8192 bytes, then the iterator restarted on the rest. -/
theorem file_iterator_cons (a : Nat) (l : List Nat) :
    file_iterator (a :: l) =
      (a :: l).take 8192 :: file_iterator ((a :: l).drop 8192) := by
  show file_iteratorAux ((a :: l).length) (a :: l) = _
  simp only [List.length_cons, file_iteratorAux]
  congr 1
  apply file_iteratorAux_congr
  · simp only [List.length_drop, List.length_cons]; omega
  · exact le_refl _

/-- Concatenating the yielded chunks reproduces the file. -/
theorem file_iteratorAux_join (fuel : Nat) :
    ∀ d : List Nat, d.length ≤ fuel → (file_iteratorAux fuel d).flatten = d := by
  induction fuel with
  | zero =>
    intro d h
    cases d with
    | nil => rfl
    | cons a l => simp at h
  | succ n ih =>
    intro d h
    cases d with
    | nil => rfl
    | cons a l =>
      simp only [file_iteratorAux, List.flatten_cons]
      rw [ih]
      · exact List.take_append_drop _ _
      · simp only [List.length_drop, List.length_cons]
        simp only [List.length_cons] at h
        omega

/-- Round trip for `file_iterator` itself. -/
theorem file_iterator_join (d : List Nat) : (file_iterator d).flatten = d :=
  file_iteratorAux_join d.length d (le_refl _)

/-- Every yielded chunk is nonempty and holds at most 8192 bytes. -/
theorem file_iteratorAux_bounds (fuel : Nat) :
    ∀ d : List Nat, ∀ c ∈ file_iteratorAux fuel d, c.length ≤ 8192 ∧ c ≠ [] := by
  induction fuel with
  | zero =>
    intro d c hc
    cases d with
    | nil => simp [file_iteratorAux] at hc
    | cons a l => simp [file_iteratorAux] at hc
  | succ n ih =>
    intro d c hc
    cases d with
    | nil => simp [file_iteratorAux] at hc
    | cons a l =>
      simp only [file_iteratorAux, List.mem_cons] at hc
      rcases hc with rfl | hc
      · refine ⟨?_, ?_⟩
        · rw [List.length_take]
          exact min_le_left _ _
        · intro hnil
          have := congrArg List.length hnil
          simp only [List.length_take, List.length_cons, List.length_nil] at this
          omega
      · exact ih _ c hc

/-- Chunk bounds for `file_iterator` itself. -/
theorem file_iterator_bounds (d : List Nat) :
    ∀ c ∈ file_iterator d, c.length ≤ 8192 ∧ c ≠ [] :=
  file_iteratorAux_bounds d.length d

/-! ## Helper lemmas -/

/-- Strings with a common left part and a common right part agree once
the middles agree. -/
theorem string_append_inj (p s a b : String) (h : p ++ a ++ s = p ++ b ++ s) :
    a = b := by
  have hd := congrArg String.data h
  simp only [String.data_append] at hd
  rw [List.append_assoc, List.append_assoc] at hd
  exact String.ext (List.append_cancel_right (List.append_cancel_left hd))

/-- Removing a directory tree erases every file lying under it. -/
theorem fsHas_fsRmtree_under (fs : FS) (dir p : List String)
    (h : leadsUnder dir p = true) : fsHas (fsRmtree fs dir) p = false := by
  unfold fsHas fsRmtree
  rw [List.any_eq_false]
  intro e he hep
  rw [List.mem_filter] at he
  rw [beq_iff_eq] at hep
  have hfalse := he.2
  rw [Bool.not_eq_true', hep, h] at hfalse
  cases hfalse

/-! ## Claim C1 — path containment on the streaming fetch -/

/-- Filesystem used to exhibit the missing containment check: a single
file that lives outside the working directory `["app"]`. -/
def escapeFS : FS := [(["etc", "passwd"], [42])]

/-- C1 counterexample: the caller-supplied traversal path
`../etc/passwd` does not fail — `get_video` resolves it outside the
managed root (the working directory `["app"]` is not an ancestor of the
resolved path) and streams the file found there; no `PathEscapeError`
or 404-equivalent error is produced. -/
theorem get_video_escape_counterexample :
    get_video escapeFS ["app"] ["..", "etc", "passwd"] =
      .stream ["etc", "passwd"] (file_iterator [42]) ∧
    leadsUnder ["app"] ["etc", "passwd"] = false := by
  constructor
  · decide
  · decide

/-- C1 (amended): the streaming fetch performs no containment check at
all: the caller's segments are joined to the working directory, the
operating system resolves any `.`/`..` segments, and whatever file
exists at the resolved location — under the managed root or not — is
opened and streamed; the only failure is the structured not-found body
when no file exists at the resolved location. -/
theorem get_video_no_containment_check (fs : FS) (cwd rel : List String) :
    (fsLookup fs (normalize (cwd ++ rel)) = none →
      get_video fs cwd rel =
        .errBody ("Video not found: " ++ renderPath (normalize (cwd ++ rel)))) ∧
    (∀ d, fsLookup fs (normalize (cwd ++ rel)) = some d →
      get_video fs cwd rel = .stream (normalize (cwd ++ rel)) (file_iterator d)) := by
  constructor
  · intro h
    simp only [get_video, h]
  · intro d h
    simp only [get_video, h]

/-- Instantiation of `get_video_no_containment_check` at a concrete
empty filesystem and traversal path: the fetch reports not-found at the
escaped location rather than rejecting the traversal. -/
theorem get_video_no_containment_check_witness :
    get_video [] ["app"] ["..", "etc", "passwd"] =
      .errBody ("Video not found: " ++
        renderPath (normalize (["app"] ++ ["..", "etc", "passwd"]))) :=
  (get_video_no_containment_check [] ["app"] ["..", "etc", "passwd"]).1 (by decide)

/-! ## Claim C2 — per-request namespace isolation -/

/-- Scratch state in which request `bbbbbbbb` has materialized its
input and is still in flight. -/
def inflightB : FS := fsWrite [] (temp_video_path "bbbbbbbb") [1, 2]

/-- C2 counterexample: two requests with distinct identifiers
(`aaaaaaaa` ≠ `bbbbbbbb`); request `bbbbbbbb`'s scratch input exists
while request `aaaaaaaa` runs to successful completion, and afterwards
`bbbbbbbb`'s scratch input is gone — `aaaaaaaa`'s cleanup
(`shutil.rmtree("temp_video")`) deleted a file in the other request's
namespace. -/
theorem cleanup_deletes_other_request_counterexample :
    ("aaaaaaaa" : String) ≠ "bbbbbbbb" ∧
    fsHas inflightB (temp_video_path "bbbbbbbb") = true ∧
    fsHas (detect_video inflightB "aaaaaaaa" [3] (.ok 5 [9])).2
      (temp_video_path "bbbbbbbb") = false := by
  refine ⟨by decide, by decide, by decide⟩

/-- C2 (amended): distinct request identifiers do give distinct scratch
input paths and distinct output artifacts/namespaces, but the scratch
directory `temp_video` itself is shared by every request: each
request's scratch input lies under that one directory, and a request's
success-path cleanup removes the whole directory, deleting every other
in-flight request's scratch input as well. (Identifiers themselves are
8-character truncations of random UUIDs; their uniqueness is
probabilistic, not guaranteed, and is not assumed here.) -/
theorem video_namespaces_amended (u1 u2 : String) (h : u1 ≠ u2)
    (fs : FS) (up : List Nat) (frames : Nat) (od : List Nat) :
    temp_video_path u1 ≠ temp_video_path u2 ∧
    output_video_path u1 ≠ output_video_path u2 ∧
    outputNamespace u1 ≠ outputNamespace u2 ∧
    leadsUnder temp_dir (temp_video_path u2) = true ∧
    fsHas (detect_video fs u1 up (.ok frames od)).2 (temp_video_path u2) = false := by
  refine ⟨?_, ?_, ?_, ?_, ?_⟩
  · intro hp
    apply h
    have h3 : input_filename u1 = input_filename u2 := by
      simpa [temp_video_path] using hp
    exact string_append_inj "input_" ".mp4" u1 u2 h3
  · intro hp
    apply h
    have h3 : ("predict_" ++ u1 = "predict_" ++ u2) ∧
        ("input_" ++ u1 ++ ".avi" = "input_" ++ u2 ++ ".avi") := by
      simpa [output_video_path] using hp
    exact string_append_inj "input_" ".avi" u1 u2 h3.2
  · intro hp
    apply h
    have h3 : "predict_" ++ u1 = "predict_" ++ u2 := by
      simpa [outputNamespace] using hp
    have h4 : "predict_" ++ u1 ++ "" = "predict_" ++ u2 ++ "" := by
      simpa using h3
    exact string_append_inj "predict_" "" u1 u2 h4
  · simp [temp_dir, temp_video_path, leadsUnder]
  · show fsHas (fsRmtree _ temp_dir) (temp_video_path u2) = false
    apply fsHas_fsRmtree_under
    simp [temp_dir, temp_video_path, leadsUnder]

/-- Instantiation of `video_namespaces_amended` at the two concrete
identifiers of the counterexample scenario. -/
theorem video_namespaces_amended_witness :
    temp_video_path "aaaaaaaa" ≠ temp_video_path "bbbbbbbb" ∧
    output_video_path "aaaaaaaa" ≠ output_video_path "bbbbbbbb" ∧
    outputNamespace "aaaaaaaa" ≠ outputNamespace "bbbbbbbb" ∧
    leadsUnder temp_dir (temp_video_path "bbbbbbbb") = true ∧
    fsHas (detect_video [] "aaaaaaaa" [3] (.ok 5 [9])).2
      (temp_video_path "bbbbbbbb") = false :=
  video_namespaces_amended "aaaaaaaa" "bbbbbbbb" (by decide) [] [3] 5 [9]

/-! ## Claim C3 — guaranteed release of the scratch input -/

/-- C3 counterexample: when the engine raises (corrupt video, model
failure), the handler returns the structured error body, yet the
materialized scratch input is still on disk afterwards — the raised
exception skips both cleanup lines, so release does not run on this
exit path. -/
theorem scratch_leak_on_failure_counterexample :
    (detect_video [] "aaaaaaaa" [7] (.fail "decode error")).1 =
      .err ("Video detection failed: " ++ "decode error") ∧
    fsHas (detect_video [] "aaaaaaaa" [7] (.fail "decode error")).2
      (temp_video_path "aaaaaaaa") = true := by
  refine ⟨by decide, by decide⟩

/-- C3 (amended): release of the scratch input executes only on the
success path — after a successful run no file under the scratch
directory remains, but on any engine failure the response is the
structured error body and the request's scratch input file is left
behind on disk. -/
theorem scratch_release_amended (fs : FS) (uid : String) (up : List Nat) :
    (∀ frames od p, leadsUnder temp_dir p = true →
      fsHas (detect_video fs uid up (.ok frames od)).2 p = false) ∧
    (∀ e, (detect_video fs uid up (.fail e)).1 =
        .err ("Video detection failed: " ++ e) ∧
      fsHas (detect_video fs uid up (.fail e)).2 (temp_video_path uid) = true) := by
  constructor
  · intro frames od p hp
    exact fsHas_fsRmtree_under _ _ _ hp
  · intro e
    refine ⟨rfl, ?_⟩
    show fsHas (fsWrite fs (temp_video_path uid) up) (temp_video_path uid) = true
    simp [fsHas, fsWrite]

/-- Instantiation of `scratch_release_amended` at a concrete request:
scratch gone after success, scratch present together with the error
body after failure. -/
theorem scratch_release_amended_witness :
    fsHas (detect_video [] "aaaaaaaa" [7] (.ok 2 [9])).2
      (temp_video_path "aaaaaaaa") = false ∧
    (detect_video [] "aaaaaaaa" [7] (.fail "x")).1 =
      .err ("Video detection failed: " ++ "x") :=
  ⟨(scratch_release_amended [] "aaaaaaaa" [7]).1 2 [9]
      (temp_video_path "aaaaaaaa") (by decide),
    ((scratch_release_amended [] "aaaaaaaa" [7]).2 "x").1⟩

/-! ## Claim C4 — streaming round trip -/

/-- C4: for every output artifact present at the resolved location, the
streaming fetch emits the `file_iterator` chunk sequence: finitely many
chunks, each nonempty and of at most the 8192-byte chunk size (so a
file larger than one chunk is never emitted whole), whose concatenation
is byte-for-byte the original file content. -/
theorem streaming_roundtrip (fs : FS) (cwd rel : List String) (data : List Nat)
    (h : fsLookup fs (normalize (cwd ++ rel)) = some data) :
    get_video fs cwd rel =
      .stream (normalize (cwd ++ rel)) (file_iterator data) ∧
    (file_iterator data).flatten = data ∧
    ∀ c ∈ file_iterator data, c.length ≤ 8192 ∧ c ≠ [] := by
  refine ⟨?_, file_iterator_join data, file_iterator_bounds data⟩
  simp only [get_video, h]

/-- Instantiation of `streaming_roundtrip` on a concrete three-byte
artifact. -/
theorem streaming_roundtrip_witness :
    get_video [(["srv", "out.avi"], [10, 20, 30])] ["srv"] ["out.avi"] =
      .stream (normalize (["srv"] ++ ["out.avi"])) (file_iterator [10, 20, 30]) ∧
    (file_iterator [10, 20, 30]).flatten = [10, 20, 30] ∧
    ∀ c ∈ file_iterator [10, 20, 30], c.length ≤ 8192 ∧ c ≠ [] :=
  streaming_roundtrip [(["srv", "out.avi"], [10, 20, 30])] ["srv"] ["out.avi"]
    [10, 20, 30] (by decide)

/-! ## Claims C5 and C10 — the classify endpoint -/

/-- Upper bound for a left fold of `max`. -/
theorem foldl_max_le : ∀ (l : List ℚ) (a b : ℚ), a ≤ b → (∀ x ∈ l, x ≤ b) →
    l.foldl max a ≤ b := by
  intro l
  induction l with
  | nil => intro a b ha _; simpa using ha
  | cons x xs ih =>
    intro a b ha hl
    simp only [List.foldl_cons]
    apply ih
    · exact max_le ha (hl x (by simp))
    · intro y hy
      exact hl y (by simp [hy])

/-- The seed is a lower bound for a left fold of `max`. -/
theorem le_foldl_max : ∀ (l : List ℚ) (a : ℚ), a ≤ l.foldl max a := by
  intro l
  induction l with
  | nil => intro a; simp
  | cons x xs ih =>
    intro a
    simp only [List.foldl_cons]
    exact le_trans (le_max_left a x) (ih (max a x))

/-- C5: for every schema-valid feature vector — summarised by the
classifier contract that the trained model's predicted code is one of
its trained classes 0, 1, 2 and that `predict_proba` yields a nonempty
row of probabilities in [0,1] — the handler returns the success body
with a label drawn from the fixed label set and a confidence
percentage in [0,100]. -/
theorem classify_label_and_confidence (pred : Int) (probas : List ℚ)
    (hpred : pred = 0 ∨ pred = 1 ∨ pred = 2)
    (hne : probas ≠ [])
    (hprob : ∀ x ∈ probas, 0 ≤ x ∧ x ≤ 1) :
    ∃ body, predict_health (.ok pred probas) = .ok body ∧
      (body.plant_health_status = "Healthy" ∨
        body.plant_health_status = "Moderate Stress" ∨
        body.plant_health_status = "High Stress") ∧
      0 ≤ body.confidence ∧ body.confidence ≤ 100 := by
  cases probas with
  | nil => exact absurd rfl hne
  | cons p ps =>
    refine ⟨_, rfl, ?_, ?_, ?_⟩
    · rcases hpred with rfl | rfl | rfl
      · exact Or.inl rfl
      · exact Or.inr (Or.inl rfl)
      · exact Or.inr (Or.inr rfl)
    · show (0 : ℚ) ≤ ps.foldl max p * 100
      have h0 : (0 : ℚ) ≤ p := (hprob p (by simp)).1
      have h1 := le_foldl_max ps p
      nlinarith
    · show ps.foldl max p * 100 ≤ 100
      have h1 : ps.foldl max p ≤ 1 := by
        apply foldl_max_le
        · exact (hprob p (by simp)).2
        · intro x hx
          exact (hprob x (by simp [hx])).2
      nlinarith

/-- Instantiation of `classify_label_and_confidence` at prediction code
0 with the degenerate probability row `[1, 0, 0]`. -/
theorem classify_label_and_confidence_witness :
    ∃ body, predict_health (.ok 0 [1, 0, 0]) = .ok body ∧
      (body.plant_health_status = "Healthy" ∨
        body.plant_health_status = "Moderate Stress" ∨
        body.plant_health_status = "High Stress") ∧
      0 ≤ body.confidence ∧ body.confidence ≤ 100 :=
  classify_label_and_confidence 0 [1, 0, 0] (by decide) (by decide) (by decide)

/-- C10: a prediction code outside the known set 0, 1, 2 still produces
the success body (not an error): the label falls back to `Unknown`
through `label_map.get(int(pred), "Unknown")` and the raw code is
echoed in `prediction_code`. -/
theorem unknown_code_fallback (pred : Int) (probas : List ℚ)
    (hpred : ¬(pred = 0 ∨ pred = 1 ∨ pred = 2))
    (hne : probas ≠ []) :
    ∃ body, predict_health (.ok pred probas) = .ok body ∧
      body.plant_health_status = "Unknown" ∧
      body.prediction_code = pred := by
  cases probas with
  | nil => exact absurd rfl hne
  | cons p ps =>
    refine ⟨_, rfl, ?_, rfl⟩
    show (label_map pred).getD "Unknown" = "Unknown"
    push_neg at hpred
    obtain ⟨h0, h1, h2⟩ := hpred
    simp [label_map, h0, h1, h2]

/-- Instantiation of `unknown_code_fallback` at the out-of-range
prediction code 5. -/
theorem unknown_code_fallback_witness :
    ∃ body, predict_health (.ok 5 [1]) = .ok body ∧
      body.plant_health_status = "Unknown" ∧
      body.prediction_code = 5 :=
  unknown_code_fallback 5 [1] (by decide) (by decide)

/-! ## Claim C6 — empty detection sequence is a success -/

/-- Collecting over results none of which carries a box yields the
empty record list. -/
theorem collectResults_empty : ∀ (results : List YoloResult),
    (∀ r ∈ results, r.boxes = none ∨ r.boxes = some []) →
    collectResults results = some [] := by
  intro results
  induction results with
  | nil => intro _; rfl
  | cons r rs ih =>
    intro h
    have hrs := ih (fun x hx => h x (by simp [hx]))
    rcases h r (by simp) with hb | hb
    · simp [collectResults, resultRecords, hb, hrs]
    · simp [collectResults, resultRecords, hb, hrs, collectBoxes]

/-- C6: when the model yields no detections — every result's `boxes`
is `None` or an empty collection — the handler returns the non-error
success body with an empty detections list and a zero total. -/
theorem empty_detections_ok (results : List YoloResult)
    (h : ∀ r ∈ results, r.boxes = none ∨ r.boxes = some []) :
    detect_image (.ok results) = .ok [] 0 := by
  simp [detect_image, collectResults_empty results h]

/-- Instantiation of `empty_detections_ok` on one boxless result and
one result with an empty box collection. -/
theorem empty_detections_ok_witness :
    detect_image (.ok [⟨fun _ => "Strawberry", none⟩,
      ⟨fun _ => "Strawberry", some []⟩]) = .ok [] 0 := by
  apply empty_detections_ok
  intro r hr
  simp only [List.mem_cons, List.not_mem_nil, or_false] at hr
  rcases hr with rfl | rfl
  · exact Or.inl rfl
  · exact Or.inr rfl

/-! ## Claim C9 — response shape of the image endpoint -/

/-- Records collected from one box list have 4-coordinate boxes when
each box's `xyxy` tensor has the single-box shape (1, 4). -/
theorem collectBoxes_shape (names : Nat → String) :
    ∀ (bs : List Box) (rs : List DetectionRecord),
      (∀ b ∈ bs, ∃ row, b.xyxy = [row] ∧ row.length = 4) →
      collectBoxes names bs = some rs →
      ∀ d ∈ rs, d.bbox.length = 4 := by
  intro bs
  induction bs with
  | nil =>
    intro rs _ hc
    cases hc
    simp
  | cons b bs ih =>
    intro rs hshape hc
    obtain ⟨row, hrow, hlen⟩ := hshape b (by simp)
    have hbr : boxRecord names b =
        some { cls := names b.cls, confidence := b.conf, bbox := row } := by
      simp [boxRecord, hrow]
    simp only [collectBoxes] at hc
    rw [hbr, Option.some_bind] at hc
    cases hcb : collectBoxes names bs with
    | none => rw [hcb, Option.none_bind] at hc; cases hc
    | some rs2 =>
      rw [hcb, Option.some_bind] at hc
      obtain rfl := Option.some.inj hc
      intro d hd
      rcases List.mem_cons.mp hd with rfl | hd2
      · exact hlen
      · exact ih rs2 (fun x hx => hshape x (by simp [hx])) hcb d hd2

/-- Records collected from the whole result list have 4-coordinate
boxes under the same shape contract. -/
theorem collectResults_shape :
    ∀ (results : List YoloResult) (ds : List DetectionRecord),
      (∀ r ∈ results, ∀ bs, r.boxes = some bs →
        ∀ b ∈ bs, ∃ row, b.xyxy = [row] ∧ row.length = 4) →
      collectResults results = some ds →
      ∀ d ∈ ds, d.bbox.length = 4 := by
  intro results
  induction results with
  | nil =>
    intro ds _ hc
    cases hc
    simp
  | cons r rs ih =>
    intro ds hshape hc
    simp only [collectResults] at hc
    cases hbx : r.boxes with
    | none =>
      have hrr : resultRecords r = some [] := by simp [resultRecords, hbx]
      rw [hrr, Option.some_bind] at hc
      cases hcr : collectResults rs with
      | none => rw [hcr, Option.none_bind] at hc; cases hc
      | some rest =>
        rw [hcr, Option.some_bind] at hc
        obtain rfl := Option.some.inj hc
        intro d hd
        simp only [List.nil_append] at hd
        exact ih rest (fun x hx => hshape x (by simp [hx])) hcr d hd
    | some bs =>
      have hrr : resultRecords r = collectBoxes r.names bs := by
        simp [resultRecords, hbx]
      rw [hrr] at hc
      cases hcb : collectBoxes r.names bs with
      | none => rw [hcb, Option.none_bind] at hc; cases hc
      | some here =>
        rw [hcb, Option.some_bind] at hc
        cases hcr : collectResults rs with
        | none => rw [hcr, Option.none_bind] at hc; cases hc
        | some rest =>
          rw [hcr, Option.some_bind] at hc
          obtain rfl := Option.some.inj hc
          intro d hd
          rcases List.mem_append.mp hd with hd1 | hd2
          · exact collectBoxes_shape r.names bs here
              (hshape r (by simp) bs hbx) hcb d hd1
          · exact ih rest (fun x hx => hshape x (by simp [hx])) hcr d hd2

/-- C9: every successful image-detection response reports
`total_detections` equal to the length of `detections`, and — under
the engine contract that each single-box `xyxy` tensor has shape
(1, 4) — every detection's `bbox` is a list of exactly 4 coordinates.
(That each record consists of exactly the fields `class`, `confidence`
and `bbox` is the definition of `DetectionRecord`.) -/
theorem image_response_shape (results : List YoloResult)
    (ds : List DetectionRecord) (n : Nat)
    (hshape : ∀ r ∈ results, ∀ bs, r.boxes = some bs →
      ∀ b ∈ bs, ∃ row, b.xyxy = [row] ∧ row.length = 4)
    (h : detect_image (.ok results) = .ok ds n) :
    n = ds.length ∧ ∀ d ∈ ds, d.bbox.length = 4 := by
  cases hcr : collectResults results with
  | none => simp [detect_image, hcr] at h
  | some l =>
    simp only [detect_image, hcr] at h
    cases h
    exact ⟨rfl, collectResults_shape results ds hshape hcr⟩

/-- Instantiation of `image_response_shape` on a one-detection
result. -/
theorem image_response_shape_witness :
    (1 : Nat) = ([{ cls := "Strawberry", confidence := 1, bbox := [1, 2, 3, 4] }] :
        List DetectionRecord).length ∧
    ∀ d ∈ ([{ cls := "Strawberry", confidence := 1, bbox := [1, 2, 3, 4] }] :
        List DetectionRecord), d.bbox.length = 4 :=
  image_response_shape
    [{ names := fun _ => "Strawberry",
       boxes := some [{ cls := 0, conf := 1, xyxy := [[1, 2, 3, 4]] }] }]
    [{ cls := "Strawberry", confidence := 1, bbox := [1, 2, 3, 4] }] 1
    (by
      intro r hr bs hbs b hb
      simp only [List.mem_cons, List.not_mem_nil, or_false] at hr
      subst hr
      simp only [Option.some.injEq] at hbs
      subst hbs
      simp only [List.mem_cons, List.not_mem_nil, or_false] at hb
      subst hb
      exact ⟨[1, 2, 3, 4], rfl, rfl⟩)
    rfl

/-! ## Claim C7 — validation before any store access -/

/-- C7 counterexample: a present payload declaring the unsupported
content type `text/plain` is not rejected up front: the handler
materializes it into the scratch store — a file write occurs — and the
failure surfaces only afterwards as the engine error body, not as a
pre-store 4xx validation rejection. -/
theorem media_type_not_validated_counterexample :
    (route_detect_video [] "aaaaaaaa" (some { contentType := "text/plain", data := [9] })
        (.fail "moov atom not found")).1 =
      .err ("Video detection failed: " ++ "moov atom not found") ∧
    fsHas (route_detect_video [] "aaaaaaaa" (some { contentType := "text/plain", data := [9] })
        (.fail "moov atom not found")).2
      (temp_video_path "aaaaaaaa") = true := by
  refine ⟨by decide, by decide⟩

/-- C7 (amended): an absent payload is indeed rejected by the
framework with a 422 validation error before any store operation (the
filesystem is untouched), but the declared media type is never
inspected: the handler behaves identically for every declared content
type, and any present payload is materialized into the scratch store
before the engine outcome is known — on an engine failure the scratch
write has already happened. -/
theorem validation_amended (fs : FS) (uid : String) (engine : EngineResult) :
    route_detect_video fs uid none engine = (.validation 422, fs) ∧
    (∀ c1 c2 d, route_detect_video fs uid (some { contentType := c1, data := d }) engine =
      route_detect_video fs uid (some { contentType := c2, data := d }) engine) ∧
    (∀ u e, fsHas (route_detect_video fs uid (some u) (.fail e)).2
      (temp_video_path uid) = true) := by
  refine ⟨rfl, fun c1 c2 d => rfl, fun u e => ?_⟩
  show fsHas (fsWrite fs (temp_video_path uid) u.data) (temp_video_path uid) = true
  simp [fsHas, fsWrite]

/-! ## Claim C8 — structured error bodies on every endpoint -/

/-- Nonempty strings stay nonempty after appending. -/
theorem prefixed_ne_empty (p e : String) (hp : p.data ≠ []) : p ++ e ≠ "" := by
  intro h
  have hd := congrArg String.data h
  simp only [String.data_append] at hd
  rw [List.append_eq_nil] at hd
  exact hp hd.1

/-- C8: every handler is a total function of its inputs (no input
terminates the process), every engine-level failure is converted into
the structured error body carrying the handler's message prefix, the
fetch endpoint's only failure is its structured not-found error body,
and none of those error messages is the empty string. -/
theorem structured_error_bodies (e : String) (fs : FS) (uid : String)
    (up : List Nat) (cwd rel : List String) :
    predict_health (.exn e) = .err ("Prediction failed: " ++ e) ∧
    detect_image (.error e) = .err ("Image detection failed: " ++ e) ∧
    (detect_video fs uid up (.fail e)).1 = .err ("Video detection failed: " ++ e) ∧
    (fsLookup fs (normalize (cwd ++ rel)) = none →
      get_video fs cwd rel =
        .errBody ("Video not found: " ++ renderPath (normalize (cwd ++ rel)))) ∧
    ("Prediction failed: " ++ e) ≠ "" ∧
    ("Image detection failed: " ++ e) ≠ "" ∧
    ("Video detection failed: " ++ e) ≠ "" ∧
    (∀ p : List String, ("Video not found: " ++ renderPath p) ≠ "") := by
  refine ⟨rfl, rfl, rfl, ?_, ?_, ?_, ?_, ?_⟩
  · intro h
    simp only [get_video, h]
  · exact prefixed_ne_empty _ e (by decide)
  · exact prefixed_ne_empty _ e (by decide)
  · exact prefixed_ne_empty _ e (by decide)
  · exact fun p => prefixed_ne_empty _ (renderPath p) (by decide)

/-- Instantiation of `structured_error_bodies` at a concrete failure
message and empty filesystem. -/
theorem structured_error_bodies_witness :
    predict_health (.exn "boom") = .err ("Prediction failed: " ++ "boom") ∧
    get_video [] ["app"] ["x.avi"] =
      .errBody ("Video not found: " ++ renderPath (normalize (["app"] ++ ["x.avi"]))) :=
  ⟨(structured_error_bodies "boom" [] "u" [] ["app"] ["x.avi"]).1,
    (structured_error_bodies "boom" [] "u" [] ["app"] ["x.avi"]).2.2.2.1 (by decide)⟩

end Strawberry
